import Mathlib

/-!
Verification development for the resin-js reactive state engine
(src/resin.ts).  The engine is shallowly embedded as an executable
fuel-indexed interpreter over an explicit world state:

* the module-level globals of resin.ts (effectStack, batchDepth,
  pendingEffects) are fields of `World`;
* every signal created by `resin(...)` is a `SignalState` stored in an
  association list keyed by an allocation id (JS object identity);
* effect functions and event handlers are closures in JS; they are
  defunctionalized as `Prog` values registered under numeric ids, which
  also models the identity-keyed `Set` deduplication of subscribers;
* observable behaviour (effect invocations and event emissions) is
  recorded in a trace (`World.log`), so that (invoked exactly once),
  (no change event fired) and similar spec sentences become statements
  about that trace;
* the `localStorage` persistence path, the `queueMicrotask` init event
  and the DEBUG logging are external or asynchronous collaborators and
  are not part of the synchronous semantics modelled here; no claim
  refers to them.

All interpreter recursion is structural on a fuel parameter, so every
definition is computable and concrete runs evaluate by `rfl`.
-/

namespace Resin

/-- JavaScript values as used by the engine.  Primitive equality is
structural; composite values (objects, sequences) compare unequal under
`jsEq`, modelling reference identity: every composite value written
through the engine in this development is a freshly constructed object,
exactly like the fresh shallow copies the source republishes. -/
inductive JsVal where
  | undef
  | null
  | bool (b : Bool)
  | num (n : Int)
  | str (s : String)
  | obj (fields : List (String × JsVal))
  | arr (elems : List JsVal)
deriving Repr

/-- The identity check `value === newValue` of the value setter. -/
def jsEq : JsVal → JsVal → Bool
  | JsVal.undef, JsVal.undef => true
  | JsVal.null, JsVal.null => true
  | JsVal.bool a, JsVal.bool b => a == b
  | JsVal.num a, JsVal.num b => a == b
  | JsVal.str a, JsVal.str b => a == b
  | _, _ => false

/-- JavaScript truthiness. -/
def jsTruthy : JsVal → Bool
  | JsVal.undef => false
  | JsVal.null => false
  | JsVal.bool b => b
  | JsVal.num n => n != 0
  | JsVal.str s => !s.isEmpty
  | JsVal.obj _ => true
  | JsVal.arr _ => true

/-- Is the value null or undefined (the short-circuit test of
getValueByPath)? -/
def isNullOrUndef : JsVal → Bool
  | JsVal.undef => true
  | JsVal.null => true
  | _ => false

/-- Event kinds of the typed handler registry. -/
inductive EventType where
  | init
  | change
  | dispose
  | error
deriving DecidableEq, Repr

/-- Payload carried by an emitted event; the change payload records the
two positional fields of `emitEvent('change', { value, oldValue })`. -/
inductive EvPayload where
  | changeP (value oldValue : JsVal)
  | errorP (message : String)
  | disposeP (value : JsVal)
deriving Repr

/-- Trace entries: an effect function being invoked, or an event being
emitted on a signal. -/
inductive Ev where
  | invoke (eid : Nat)
  | emit (sid : Nat) (ty : EventType) (pl : EvPayload)
deriving Repr

/-- Exceptions.  `disposedAccess` carries the message of the Error the
source throws; `thrown` is a user exception; `fuelOut` marks fuel
exhaustion of the interpreter (never reached in the concrete runs of
this development). -/
inductive Exn where
  | disposedAccess (msg : String)
  | thrown
  | fuelOut
deriving Repr

/-- Result of the configured validator, mirroring
`boolean | { valid: boolean; error?: string }`. -/
inductive VResult where
  | boolR (b : Bool)
  | objR (valid : Bool) (error : Option String)

/-- Expressions: the bodies of the pure functions handed to `computed`
and the reads they perform. -/
inductive Expr where
  | lit (v : JsVal)
  | readSig (sid : Nat)
  | readPath (sid : Nat) (path : String)
  | iteE (c t e : Expr)
  | throwE

/-- Statement-level programs: the defunctionalized bodies of effect
functions, event handlers and batch callbacks. -/
inductive Prog where
  | skip
  | seq (a b : Prog)
  | exprStmt (e : Expr)
  | writeSig (sid : Nat) (e : Expr)
  | writeSigWith (sid : Nat) (srcs : List Nat) (f : List JsVal → JsVal)
  | tryCatch (body handlerP : Prog)
  | batchP (body : Prog)
  | disposeP (sid : Nat)
  | throwP

/-- Per-signal state: the closure variables of one `resin(...)` call. -/
structure SignalState where
  value : JsVal
  disposed : Bool
  subscribers : List Nat
  handlers : List (EventType × Nat)
  errorSlot : Option String
  validate : Option (JsVal → VResult)
  transform : List (JsVal → JsVal)

/-- The world: all signals plus the module-level globals of resin.ts.
The head of `effectStack` is the top of the stack
(`effectStack[effectStack.length - 1]` in the source). -/
structure World where
  signals : List (Nat × SignalState)
  effectStack : List Nat
  batchDepth : Nat
  pendingEffects : List Nat
  effectDefs : List (Nat × Prog)
  handlerDefs : List (Nat × Prog)
  nextId : Nat
  log : List Ev

/-- Association-list lookup (JS Map.get / object identity keyed). -/
def assocFind {κ α : Type} [DecidableEq κ] (k : κ) : List (κ × α) → Option α
  | [] => none
  | (k0, a) :: rest => if k0 = k then some a else assocFind k rest

/-- Replace the entry of a signal id. -/
def setSigList (sid : Nat) (s : SignalState) :
    List (Nat × SignalState) → List (Nat × SignalState)
  | [] => []
  | (k, s0) :: rest =>
    if k = sid then (k, s) :: setSigList sid s rest
    else (k, s0) :: setSigList sid s rest

def getSig (w : World) (sid : Nat) : Option SignalState :=
  assocFind sid w.signals

def setSig (w : World) (sid : Nat) (s : SignalState) : World :=
  { w with signals := setSigList sid s w.signals }

/-- Current value of a signal (the closure variable `value`). -/
def currentValue (w : World) (sid : Nat) : JsVal :=
  match getSig w sid with
  | some s => s.value
  | none => JsVal.undef

/-- Is the signal disposed in this world? -/
def disposedAt (w : World) (sid : Nat) : Bool :=
  match getSig w sid with
  | some s => s.disposed
  | none => false

/-- JS `Set.add`: append if not already present (identity-keyed,
insertion ordered). -/
def addUnique (l : List Nat) (e : Nat) : List Nat :=
  if e ∈ l then l else l ++ [e]

/-- Handlers registered for one event kind
(`eventHandlers.get(type)`). -/
def handlersFor (s : SignalState) (ty : EventType) : List Nat :=
  s.handlers.filterMap (fun p => if p.1 = ty then some p.2 else none)

/-- The transform pipeline fold of `transformValue`:
`options.transform.reduce((val, fn) => fn(val), newValue)`. -/
def transformValue (fs : List (JsVal → JsVal)) (v : JsVal) : JsVal :=
  fs.foldl (fun val f => f val) v

/-- `validateValue` with the boolean-result normalization. -/
def validateValue (s : SignalState) (v : JsVal) : Bool × Option String :=
  match s.validate with
  | none => (true, none)
  | some f =>
    match f v with
    | VResult.boolR b => (b, none)
    | VResult.objR valid err => (valid, err)

/-- Record the current error of the signal (the `error = ...`
assignments in the catch blocks). -/
def setErrorSlot (w : World) (sid : Nat) (m : String) : World :=
  match getSig w sid with
  | none => w
  | some s => setSig w sid { s with errorSlot := some m }

/-- The value getter (lines 103-116): throw if disposed, otherwise
register the innermost running effect as a subscriber and return the
current value. -/
def readValue (sid : Nat) (w : World) : Except Exn JsVal × World :=
  match getSig w sid with
  | none => (Except.ok JsVal.undef, w)
  | some s =>
    if s.disposed then
      (Except.error (Exn.disposedAccess "Attempted to access disposed resin"), w)
    else
      match w.effectStack with
      | [] => (Except.ok s.value, w)
      | ce :: _ =>
        (Except.ok s.value, setSig w sid { s with subscribers := addUnique s.subscribers ce })

/-- Split a path on the dot separator (`path.split('.')`). -/
def splitDotAux : List Char → List Char → List String
  | [], acc => [String.mk acc.reverse]
  | c :: rest, acc =>
    if c = '.' then String.mk acc.reverse :: splitDotAux rest []
    else splitDotAux rest (c :: acc)

def splitDot (s : String) : List String :=
  splitDotAux s.toList []

/-- The `/^\d+$/` test. -/
def isAllDigits (s : String) : Bool :=
  !s.isEmpty && s.toList.all Char.isDigit

/-- Generic property access `current[key]` for the non-index branch. -/
def propGet : JsVal → String → JsVal
  | JsVal.obj fields, k => (assocFind k fields).getD JsVal.undef
  | JsVal.arr elems, k => if k = "length" then JsVal.num elems.length else JsVal.undef
  | JsVal.str s, k => if k = "length" then JsVal.num s.length else JsVal.undef
  | _, _ => JsVal.undef

/-- The segment loop of `getValueByPath` (lines 464-480). -/
def pathGo : List String → JsVal → JsVal
  | [], cur => cur
  | key :: rest, cur =>
    let next :=
      match cur with
      | JsVal.arr elems =>
        if isAllDigits key then elems.getD (key.toNat?.getD 0) JsVal.undef
        else propGet cur key
      | _ => propGet cur key
    if isNullOrUndef next then JsVal.undef else pathGo rest next

/-- `getValueByPath(obj, path)` (lines 461-481). -/
def getValueByPath (obj : JsVal) (path : String) : JsVal :=
  if jsTruthy obj then pathGo (splitDot path) obj else JsVal.undef

/-- Expression evaluation; reads go through the value getter. -/
def evalExpr : Expr → World → Except Exn JsVal × World
  | Expr.lit v, w => (Except.ok v, w)
  | Expr.readSig sid, w => readValue sid w
  | Expr.readPath sid path, w =>
    match readValue sid w with
    | (Except.ok v, w) => (Except.ok (getValueByPath v path), w)
    | (Except.error e, w) => (Except.error e, w)
  | Expr.iteE c t e, w =>
    match evalExpr c w with
    | (Except.ok v, w) => if jsTruthy v then evalExpr t w else evalExpr e w
    | (Except.error ex, w) => (Except.error ex, w)
  | Expr.throwE, w => (Except.error Exn.thrown, w)

/-- `from.map(dep => dep.value)`: read a list of source signals. -/
def readMany : List Nat → World → Except Exn (List JsVal) × World
  | [], w => (Except.ok [], w)
  | sid :: rest, w =>
    match readValue sid w with
    | (Except.ok v, w) =>
      match readMany rest w with
      | (Except.ok vs, w) => (Except.ok (v :: vs), w)
      | (Except.error e, w) => (Except.error e, w)
    | (Except.error e, w) => (Except.error e, w)

/-- The activities of the engine that can re-enter each other.  A single
sum type keeps the interpreter one structurally recursive function, so
that it reduces definitionally. -/
inductive Act where
  | prog (p : Prog)
  | write (sid : Nat) (v : JsVal)
  | notifyA (sid : Nat) (oldValue : JsVal)
  | effects (es : List Nat)
  | emitA (sid : Nat) (ty : EventType) (pl : EvPayload)
  | handlersA (sid : Nat) (hs : List Nat)
  | disposeA (sid : Nat)

/-- The engine interpreter.  Each `Act` case is a direct transliteration
of the corresponding function of src/resin.ts:

* `write sid v` — the value setter (lines 117-152): disposed check, the
  `value === newValue` no-op, transform fold, validation with the error
  event on rejection, assignment of the untransformed value, `notify`
  with the transformed value, and the catch block that wraps an
  exception escaping `notify` into an error event;
* `notifyA` — `notify(oldValue)` (lines 50-74): no-op if disposed; with
  a batch open every subscriber is added to the shared pending set,
  otherwise all subscribers run synchronously; in both cases a change
  event is then emitted with the current value and `oldValue`;
* `effects es` — `subscribers.forEach(effect => effect())`; an exception
  from an effect aborts the iteration and propagates;
* `emitA` — `emitEvent` (lines 83-96): records the emission in the
  trace, then runs every handler registered for the kind; a handler
  exception is caught, stored as the signal error and re-reported via a
  recursive error emission;
* `disposeA` — `dispose()` (lines 169-178): idempotent; sets the
  terminal flag, emits one dispose event, then clears subscribers and
  handlers;
* `prog (batchP body)` — `batch(fn)` (lines 201-212): depth up, run the
  body, depth down in a finally, and on return to depth zero run every
  pending effect and clear the pending set (the clear is skipped when
  the flush throws, exactly as in the source).

Set iteration (forEach over subscribers, handlers and pending effects)
is modelled over the membership list captured when the iteration
starts; none of the runs in this development mutates a set while it is
being iterated. -/
def exec : Nat → Act → World → Except Exn Unit × World
  | fuel, Act.effects es, w =>
    match es with
    | [] => (Except.ok (), w)
    | e :: rest =>
      match fuel with
      | 0 => (Except.error Exn.fuelOut, w)
      | fuel+1 =>
        let w := { w with log := w.log ++ [Ev.invoke e] }
        match
          (match assocFind e w.effectDefs with
           | none => (Except.ok (), w)
           | some p => exec fuel (Act.prog p) w) with
        | (Except.ok _, w) => exec fuel (Act.effects rest) w
        | (Except.error ex, w) => (Except.error ex, w)
  | fuel, Act.handlersA sid hs, w =>
    match hs with
    | [] => (Except.ok (), w)
    | h :: rest =>
      match fuel with
      | 0 => (Except.error Exn.fuelOut, w)
      | fuel+1 =>
        match
          (match assocFind h w.handlerDefs with
           | none => (Except.ok (), w)
           | some p => exec fuel (Act.prog p) w) with
        | (Except.ok _, w) => exec fuel (Act.handlersA sid rest) w
        | (Except.error _, w) =>
          let w := setErrorSlot w sid "handler error"
          let w := (exec fuel (Act.emitA sid EventType.error (EvPayload.errorP "handler error")) w).2
          exec fuel (Act.handlersA sid rest) w
  | fuel, Act.emitA sid ty pl, w =>
    match fuel with
    | 0 => (Except.ok (), w)
    | fuel+1 =>
      let w := { w with log := w.log ++ [Ev.emit sid ty pl] }
      match getSig w sid with
      | none => (Except.ok (), w)
      | some s => exec fuel (Act.handlersA sid (handlersFor s ty)) w
  | fuel, Act.notifyA sid oldValue, w =>
    match fuel with
    | 0 => (Except.error Exn.fuelOut, w)
    | fuel+1 =>
      match getSig w sid with
      | none => (Except.ok (), w)
      | some s =>
        if s.disposed then (Except.ok (), w)
        else if w.batchDepth > 0 then
          let w := { w with pendingEffects := s.subscribers.foldl addUnique w.pendingEffects }
          let w := (exec fuel (Act.emitA sid EventType.change
            (EvPayload.changeP (currentValue w sid) oldValue)) w).2
          (Except.ok (), w)
        else
          match exec fuel (Act.effects s.subscribers) w with
          | (Except.error e, w) => (Except.error e, w)
          | (Except.ok _, w) =>
            let w := (exec fuel (Act.emitA sid EventType.change
              (EvPayload.changeP (currentValue w sid) oldValue)) w).2
            (Except.ok (), w)
  | fuel, Act.write sid newValue, w =>
    match fuel with
    | 0 => (Except.error Exn.fuelOut, w)
    | fuel+1 =>
      match getSig w sid with
      | none => (Except.ok (), w)
      | some s =>
        if s.disposed then
          (Except.error (Exn.disposedAccess "Attempted to modify disposed resin"), w)
        else if jsEq s.value newValue then (Except.ok (), w)
        else
          let transformed := transformValue s.transform newValue
          let vr := validateValue s newValue
          if vr.1 then
            let w := setSig w sid { s with value := newValue }
            match exec fuel (Act.notifyA sid transformed) w with
            | (Except.ok _, w) => (Except.ok (), w)
            | (Except.error _, w) =>
              let w := setErrorSlot w sid "Error in Resin"
              let w := (exec fuel (Act.emitA sid EventType.error
                (EvPayload.errorP "Error in Resin")) w).2
              (Except.ok (), w)
          else
            let w := (exec fuel (Act.emitA sid EventType.error
              (EvPayload.errorP (vr.2.getD "Validation failed"))) w).2
            (Except.ok (), w)
  | fuel, Act.disposeA sid, w =>
    match fuel with
    | 0 => (Except.error Exn.fuelOut, w)
    | fuel+1 =>
      match getSig w sid with
      | none => (Except.ok (), w)
      | some s =>
        if s.disposed then (Except.ok (), w)
        else
          let w := setSig w sid { s with disposed := true }
          let w := (exec fuel (Act.emitA sid EventType.dispose (EvPayload.disposeP s.value)) w).2
          match getSig w sid with
          | none => (Except.ok (), w)
          | some s2 =>
            (Except.ok (), setSig w sid { s2 with subscribers := [], handlers := [] })
  | fuel, Act.prog p, w =>
    match fuel with
    | 0 => (Except.error Exn.fuelOut, w)
    | fuel+1 =>
      match p with
      | Prog.skip => (Except.ok (), w)
      | Prog.seq a b =>
        match exec fuel (Act.prog a) w with
        | (Except.ok _, w) => exec fuel (Act.prog b) w
        | (Except.error e, w) => (Except.error e, w)
      | Prog.exprStmt e =>
        match evalExpr e w with
        | (Except.ok _, w) => (Except.ok (), w)
        | (Except.error ex, w) => (Except.error ex, w)
      | Prog.writeSig sid e =>
        match evalExpr e w with
        | (Except.ok v, w) => exec fuel (Act.write sid v) w
        | (Except.error ex, w) => (Except.error ex, w)
      | Prog.writeSigWith sid srcs f =>
        match readMany srcs w with
        | (Except.ok vs, w) => exec fuel (Act.write sid (f vs)) w
        | (Except.error ex, w) => (Except.error ex, w)
      | Prog.tryCatch body handlerP =>
        match exec fuel (Act.prog body) w with
        | (Except.ok _, w) => (Except.ok (), w)
        | (Except.error _, w) => exec fuel (Act.prog handlerP) w
      | Prog.batchP body =>
        let w := { w with batchDepth := w.batchDepth + 1 }
        match exec fuel (Act.prog body) w with
        | (r, w) =>
          let w := { w with batchDepth := w.batchDepth - 1 }
          if w.batchDepth = 0 then
            match exec fuel (Act.effects w.pendingEffects) w with
            | (Except.ok _, w) => (r, { w with pendingEffects := [] })
            | (Except.error e, w) => (Except.error e, w)
          else (r, w)
      | Prog.disposeP sid => exec fuel (Act.disposeA sid) w
      | Prog.throwP => (Except.error Exn.thrown, w)

/-- `runProg` executes an effect or handler body. -/
def runProg (fuel : Nat) (p : Prog) (w : World) : Except Exn Unit × World :=
  exec fuel (Act.prog p) w

/-- The value setter. -/
def writeValue (fuel : Nat) (sid : Nat) (v : JsVal) (w : World) :
    Except Exn Unit × World :=
  exec fuel (Act.write sid v) w

/-- `notify(oldValue)`. -/
def notify (fuel : Nat) (sid : Nat) (oldValue : JsVal) (w : World) :
    Except Exn Unit × World :=
  exec fuel (Act.notifyA sid oldValue) w

/-- `emitEvent(type, event)` — never throws to its caller. -/
def emitEvent (fuel : Nat) (sid : Nat) (ty : EventType) (pl : EvPayload) (w : World) : World :=
  (exec fuel (Act.emitA sid ty pl) w).2

/-- `subscribers.forEach(effect => effect())`. -/
def runEffects (fuel : Nat) (es : List Nat) (w : World) : Except Exn Unit × World :=
  exec fuel (Act.effects es) w

/-- `dispose()`. -/
def disposeSig (fuel : Nat) (sid : Nat) (w : World) : World :=
  (exec fuel (Act.disposeA sid) w).2

/-- `resin(initialValue, options)` (lines 19-189, persistence and the
asynchronous init emission omitted as external collaborators): allocate
a fresh signal with the given validator and transform pipeline and
return its id. -/
def resin (initialValue : JsVal) (validate : Option (JsVal → VResult))
    (transform : List (JsVal → JsVal)) (w : World) : Nat × World :=
  let sid := w.nextId
  (sid,
    { w with
      nextId := sid + 1
      signals := w.signals ++
        [(sid,
          { value := initialValue
            disposed := false
            subscribers := []
            handlers := []
            errorSlot := none
            validate := validate
            transform := transform })] })

/-- `on(event, handler)` (lines 159-168).  Note: the source performs no
disposed check here. -/
def onEvent (sid : Nat) (ty : EventType) (body : Prog) (w : World) : Nat × World :=
  let hid := w.nextId
  let w := { w with nextId := hid + 1, handlerDefs := w.handlerDefs ++ [(hid, body)] }
  match getSig w sid with
  | none => (hid, w)
  | some s => (hid, setSig w sid { s with handlers := s.handlers ++ [(ty, hid)] })

/-- `watchEffect(effect)` (lines 316-320): push the effect, run it once,
pop.  The pop is not inside a finally, so when the effect throws the
exception propagates and the effect stays on the stack. -/
def watchEffect (fuel : Nat) (p : Prog) (w : World) :
    Except Exn Unit × Nat × World :=
  let eid := w.nextId
  let w := { w with nextId := eid + 1, effectDefs := w.effectDefs ++ [(eid, p)] }
  let w := { w with effectStack := eid :: w.effectStack }
  let w := { w with log := w.log ++ [Ev.invoke eid] }
  match runProg fuel p w with
  | (Except.ok _, w) => (Except.ok (), eid, { w with effectStack := w.effectStack.tail })
  | (Except.error e, w) => (Except.error e, eid, w)

/-- `batch(fn)` (lines 201-212). -/
def batch (fuel : Nat) (body : Prog) (w : World) : Except Exn Unit × World :=
  runProg fuel (Prog.batchP body) w

/-- `computed(fn)` (lines 222-230): seed a signal with `fn()`, then
register the recompute effect through `watchEffect`.  Returns the id of
the computed signal and the id of its recompute effect. -/
def computed (fuel : Nat) (fn : Expr) (w : World) :
    Except Exn (Nat × Nat) × World :=
  match evalExpr fn w with
  | (Except.error e, w) => (Except.error e, w)
  | (Except.ok v, w) =>
    let (cid, w) := resin v none [] w
    match watchEffect fuel (Prog.writeSig cid fn) w with
    | (Except.ok _, eid, w) => (Except.ok (cid, eid), w)
    | (Except.error e, _, w) => (Except.error e, w)

/-- The object returned by `derive` (lines 262-268):
`{ ...derivedResin, dispose() {...} }`.  The object spread evaluates the
`value` getter of `derivedResin` once and stores the result as a plain
data property; `valueProp` is that data property, which is what a read
of `.value` on the returned object yields from then on.  `sid` is the
internal derived signal and `eid` its tracking effect. -/
structure DeriveHandle where
  sid : Nat
  eid : Nat
  valueProp : JsVal

/-- `derive({ from, compute })` (lines 244-269): seed with the compute
over all current source values, register the recompute effect (whose
body catches and logs recompute failures), then build the returned
object by spreading the derived signal. -/
def derive (fuel : Nat) (srcs : List Nat) (f : List JsVal → JsVal) (w : World) :
    Except Exn DeriveHandle × World :=
  match readMany srcs w with
  | (Except.error e, w) => (Except.error e, w)
  | (Except.ok vs, w) =>
    let (did, w) := resin (f vs) none [] w
    match watchEffect fuel (Prog.tryCatch (Prog.writeSigWith did srcs f) Prog.skip) w with
    | (Except.error e, _, w) => (Except.error e, w)
    | (Except.ok _, eid, w) =>
      match readValue did w with
      | (Except.error e, w) => (Except.error e, w)
      | (Except.ok snap, w) =>
        (Except.ok { sid := did, eid := eid, valueProp := snap }, w)

/-- `select(state, path)` (lines 288-307).  The source creates
`const cache = new WeakMap(...)` inside the function body, so every call
starts from a fresh empty cache: the lookup can never hit and a new
computed signal is created on every call. -/
def select (fuel : Nat) (state : Nat) (path : String) (w : World) :
    Except Exn Nat × World :=
  let cache : List ((Nat × String) × Nat) := []
  match assocFind (state, path) cache with
  | some sid => (Except.ok sid, w)
  | none =>
    match computed fuel (Expr.readPath state path) w with
    | (Except.ok (cid, _), w) => (Except.ok cid, w)
    | (Except.error e, w) => (Except.error e, w)

/-- Property keys seen by a Proxy set trap.  ECMAScript delivers proxy
trap keys as strings or symbols only; an index assignment `a[0] = x`
reaches the trap with the string key "0". -/
inductive PropKey where
  | str (s : String)
  | sym (id : Nat)
deriving DecidableEq

/-- `typeof prop` for a trap key: always "string" or "symbol". -/
def typeOf : PropKey → String
  | PropKey.str _ => "string"
  | PropKey.sym _ => "symbol"

/-- An enhanced sequence wrapper: the backing signal id plus the raw
target array the proxy traps mutate in place. -/
structure EnhArr where
  baseSid : Nat
  target : List JsVal

/-- `target.length = n` semantics: truncate or pad with undefined. -/
def lengthAssign (xs : List JsVal) (n : Nat) : List JsVal :=
  if n ≤ xs.length then xs.take n
  else xs ++ List.replicate (n - xs.length) JsVal.undef

/-- The set trap of `enhanceArray` (lines 376-383):
`if (typeof prop === 'number' || prop === 'length') { target[prop] = value;
baseResin.value = [...target]; } return true;`. -/
def arraySetTrap (fuel : Nat) (ea : EnhArr) (prop : PropKey) (v : JsVal) (w : World) :
    EnhArr × World × Bool :=
  if typeOf prop = "number" ∨ prop = PropKey.str "length" then
    let target :=
      match prop, v with
      | PropKey.str "length", JsVal.num n => lengthAssign ea.target n.toNat
      | _, _ => ea.target
    let w := (writeValue fuel ea.baseSid (JsVal.arr target) w).2
    ({ baseSid := ea.baseSid, target := target }, w, true)
  else
    (ea, w, true)

/-- The empty world. -/
def w0 : World :=
  { signals := []
    effectStack := []
    batchDepth := 0
    pendingEffects := []
    effectDefs := []
    handlerDefs := []
    nextId := 0
    log := [] }

/-! Concrete runs used by the claims.  Signal, effect and handler ids
are allocated sequentially from `World.nextId`, so they are fixed
numerals in each run. -/

/-- C1 run: signal 0 holds false, signal 1 holds 5; the computed
function is `a.value ? b.value : 0`, so only signal 0 is read during the
initial (tracked) execution. -/
def c1Fn : Expr :=
  Expr.iteE (Expr.readSig 0) (Expr.readSig 1) (Expr.lit (JsVal.num 0))

def c1WStart : World :=
  (resin (JsVal.num 5) none [] (resin (JsVal.bool false) none [] w0).2).2

/-- World after `computed` registers the recompute effect: computed
signal 2, recompute effect 3. -/
def c1WComputed : World := (computed 20 c1Fn c1WStart).2

/-- World after `a.value = true`: the recompute effect runs and reads
signal 1 for the first time, outside any tracked execution. -/
def c1WAfterA : World := (writeValue 20 0 (JsVal.bool true) c1WComputed).2

/-- World after `b.value = 7`. -/
def c1WAfterB : World := (writeValue 20 1 (JsVal.num 7) c1WAfterA).2

/-- C2 run: sources 0 and 1 hold 1 and 2, compute is the sum. -/
def c2Sum : List JsVal → JsVal
  | [JsVal.num a, JsVal.num b] => JsVal.num (a + b)
  | _ => JsVal.undef

def c2WStart : World :=
  (resin (JsVal.num 2) none [] (resin (JsVal.num 1) none [] w0).2).2

def c2Derived : Except Exn DeriveHandle × World := derive 20 [0, 1] c2Sum c2WStart

/-- The object derive returned: internal signal 2, effect 3. -/
def c2Handle : DeriveHandle :=
  match c2Derived.1 with
  | Except.ok h => h
  | Except.error _ => { sid := 99, eid := 99, valueProp := JsVal.undef }

/-- World after `source1.value = 10`. -/
def c2WAfterWrite : World := (writeValue 20 0 (JsVal.num 10) c2Derived.2).2

/-- C3 run: an effect (id 2) subscribed to signals 0 and 1 by reading
both inside `watchEffect`. -/
def c3Body : Prog :=
  Prog.seq (Prog.exprStmt (Expr.readSig 0)) (Prog.exprStmt (Expr.readSig 1))

def c3WStart : World :=
  (watchEffect 20 c3Body
    (resin (JsVal.num 1) none [] (resin (JsVal.num 0) none [] w0).2).2).2.2

def c3WriteX : Prog := Prog.writeSig 0 (Expr.lit (JsVal.num 2))
def c3WriteY : Prog := Prog.writeSig 1 (Expr.lit (JsVal.num 3))

def c3RunXY : Except Exn Unit × World :=
  batch 20 (Prog.seq c3WriteX c3WriteY) c3WStart

def c3RunYX : Except Exn Unit × World :=
  batch 20 (Prog.seq c3WriteY c3WriteX) c3WStart

/-- A batch whose first step is a nested inner batch. -/
def c3RunNested : Except Exn Unit × World :=
  batch 20 (Prog.seq (Prog.batchP c3WriteX) c3WriteY) c3WStart

/-- C5 run: a state signal holding `{ a: { b: 5 } }`. -/
def c5WStart : World :=
  (resin (JsVal.obj [("a", JsVal.obj [("b", JsVal.num 5)])]) none [] w0).2

def c5First : Except Exn Nat × World := select 20 0 "a.b" c5WStart
def c5Second : Except Exn Nat × World := select 20 0 "a.b" c5First.2

/-- C6 run: a signal that is disposed, then `on` is called. -/
def c6WDisposed : World := disposeSig 5 0 (resin (JsVal.num 0) none [] w0).2
def c6OnRes : Nat × World := onEvent 0 EventType.change Prog.skip c6WDisposed

/-- C10 run: `watchEffect` with an effect body that throws. -/
def c10WStart : World := (resin (JsVal.num 0) none [] w0).2
def c10Res : Except Exn Unit × Nat × World := watchEffect 5 Prog.throwP c10WStart
def c10Read : Except Exn JsVal × World := readValue 0 c10Res.2.2

/-- C4 witness world: signal 0 with effect 1 subscribed, inside an open
batch (depth 1). -/
def c4W : World :=
  { (watchEffect 10 (Prog.exprStmt (Expr.readSig 0))
      (resin (JsVal.num 0) none [] w0).2).2.2 with batchDepth := 1 }

/-- C7 witness validator: rejects every value with the message bad. -/
def c7Validator : JsVal → VResult := fun _ => VResult.objR false (some "bad")

def c7W : World := (resin (JsVal.num 0) (some c7Validator) [] w0).2

/-- C8 witness transform pipeline: double, then increment. -/
def c8Transform : List (JsVal → JsVal) :=
  [fun v => match v with | JsVal.num n => JsVal.num (n * 2) | v2 => v2,
   fun v => match v with | JsVal.num n => JsVal.num (n + 1) | v2 => v2]

def c8W : World := (resin (JsVal.num 1) none c8Transform w0).2

/-! Helper lemmas about the association-list signal store. -/

theorem assocFind_setSigList (l : List (Nat × SignalState)) (sid : Nat)
    (s' : SignalState) (sid' : Nat) :
    assocFind sid' (setSigList sid s' l) =
      if sid = sid' then (assocFind sid' l).map (fun _ => s')
      else assocFind sid' l := by
  induction l with
  | nil => by_cases h : sid = sid' <;> simp [setSigList, assocFind, h]
  | cons hd tl ih =>
    obtain ⟨k, s0⟩ := hd
    by_cases hk : k = sid
    · subst hk
      by_cases hq : k = sid'
      · subst hq
        simp [setSigList, assocFind, ih]
      · simp [setSigList, assocFind, hq, ih]
    · by_cases hq : k = sid'
      · subst hq
        have hne : sid ≠ k := fun h => hk h.symm
        simp [setSigList, assocFind, hk, hne]
      · simp [setSigList, assocFind, hk, hq, ih]

theorem getSig_setSig_self {w : World} {sid : Nat} {s : SignalState}
    (s' : SignalState) (hs : getSig w sid = some s) :
    getSig (setSig w sid s') sid = some s' := by
  unfold getSig setSig at *
  rw [assocFind_setSigList]
  simp [hs]

/-- Execution-wide preservation: the interpreter never touches the
effect stack (only `watchEffect` pushes and pops it), and a disposed
flag, once true, is never reset (only `dispose()` writes it, to
true). -/
def Pres (w w2 : World) : Prop :=
  w2.effectStack = w.effectStack ∧
  ∀ sid, disposedAt w sid = true → disposedAt w2 sid = true

theorem pres_refl (w : World) : Pres w w := ⟨rfl, fun _ h => h⟩

theorem pres_trans {w1 w2 w3 : World} (a : Pres w1 w2) (b : Pres w2 w3) :
    Pres w1 w3 :=
  ⟨b.1.trans a.1, fun sid h => b.2 sid (a.2 sid h)⟩

theorem pres_setSig {w : World} {sid : Nat} {s s' : SignalState}
    (hs : getSig w sid = some s) (hd : s.disposed = true → s'.disposed = true) :
    Pres w (setSig w sid s') := by
  refine ⟨rfl, ?_⟩
  intro sid' h
  unfold disposedAt getSig setSig at *
  rw [assocFind_setSigList]
  by_cases hq : sid = sid'
  · subst hq
    rw [hs] at h ⊢
    simp only [Option.map_some]
    exact hd h
  · simp [hq]
    exact h

theorem pres_setErrorSlot (w : World) (sid : Nat) (m : String) :
    Pres w (setErrorSlot w sid m) := by
  unfold setErrorSlot
  cases hs : getSig w sid with
  | none => exact pres_refl w
  | some s => exact pres_setSig hs (fun h => h)

theorem pres_of_same_signals {w w2 : World} (hst : w2.effectStack = w.effectStack)
    (hsg : w2.signals = w.signals) : Pres w w2 := by
  refine ⟨hst, ?_⟩
  intro sid h
  unfold disposedAt getSig at *
  rw [hsg]
  exact h

theorem pres_readValue (sid : Nat) (w : World) : Pres w (readValue sid w).2 := by
  cases hg : getSig w sid with
  | none =>
    simp only [readValue, hg]
    exact pres_refl _
  | some s =>
    by_cases hdis : s.disposed = true
    · simp only [readValue, hg]
      rw [if_pos hdis]
      exact pres_refl _
    · cases hst : w.effectStack with
      | nil =>
        simp only [readValue, hg, hst]
        rw [if_neg hdis]
        exact pres_refl _
      | cons ce tl =>
        simp only [readValue, hg, hst]
        rw [if_neg hdis]
        exact pres_setSig hg (fun h => h)

theorem pres_evalExpr (e : Expr) : ∀ w : World, Pres w (evalExpr e w).2 := by
  induction e with
  | lit v => intro w; exact pres_refl _
  | readSig sid => intro w; exact pres_readValue sid w
  | readPath sid path =>
    intro w
    unfold evalExpr
    cases hr : readValue sid w with
    | mk r w2 =>
      have hp : Pres w w2 := by
        have h := pres_readValue sid w
        rw [hr] at h
        exact h
      cases r with
      | ok v => exact hp
      | error ex => exact hp
  | iteE c t e2 ihc iht ihe =>
    intro w
    unfold evalExpr
    split
    next v w2 heq =>
      have hp : Pres w w2 := by
        have h := ihc w
        rw [heq] at h
        exact h
      split
      · exact pres_trans hp (iht w2)
      · exact pres_trans hp (ihe w2)
    next ex w2 heq =>
      have hp : Pres w w2 := by
        have h := ihc w
        rw [heq] at h
        exact h
      exact hp
  | throwE => intro w; exact pres_refl _

theorem pres_readMany (srcs : List Nat) : ∀ w : World, Pres w (readMany srcs w).2 := by
  induction srcs with
  | nil => intro w; exact pres_refl _
  | cons sid rest ih =>
    intro w
    unfold readMany
    split
    next v w2 heq =>
      have hp : Pres w w2 := by
        have h := pres_readValue sid w
        rw [heq] at h
        exact h
      split
      next vs w3 heq2 =>
        have hp2 : Pres w2 w3 := by
          have h := ih w2
          rw [heq2] at h
          exact h
        exact pres_trans hp hp2
      next ex w3 heq2 =>
        have hp2 : Pres w2 w3 := by
          have h := ih w2
          rw [heq2] at h
          exact h
        exact pres_trans hp hp2
    next ex w2 heq =>
      have hp : Pres w w2 := by
        have h := pres_readValue sid w
        rw [heq] at h
        exact h
      exact hp

/-- The central preservation theorem: running any engine activity leaves
the effect stack exactly as it was and keeps every disposed flag that
was true.  It is proved by induction on fuel across all activities at
once. -/
theorem pres_exec (fuel : Nat) : ∀ (a : Act) (w : World), Pres w (exec fuel a w).2 := by
  induction fuel with
  | zero =>
    intro a w
    cases a with
    | effects es => cases es <;> exact pres_refl _
    | handlersA sid hs => cases hs <;> exact pres_refl _
    | prog p => exact pres_refl _
    | write sid v => exact pres_refl _
    | notifyA sid ov => exact pres_refl _
    | emitA sid ty pl => exact pres_refl _
    | disposeA sid => exact pres_refl _
  | succ fuel ih =>
    intro a w
    cases a with
    | effects es =>
      cases es with
      | nil => exact pres_refl _
      | cons e rest =>
        simp only [exec]
        have p1 : Pres w { w with log := w.log ++ [Ev.invoke e] } :=
          pres_of_same_signals rfl rfl
        cases hd : assocFind e { w with log := w.log ++ [Ev.invoke e] }.effectDefs with
        | none =>
          simp only [hd]
          exact pres_trans p1 (ih (Act.effects rest) _)
        | some p =>
          simp only [hd]
          cases hr : exec fuel (Act.prog p) { w with log := w.log ++ [Ev.invoke e] } with
          | mk r w2 =>
            have p2 : Pres { w with log := w.log ++ [Ev.invoke e] } w2 := by
              have h := ih (Act.prog p) { w with log := w.log ++ [Ev.invoke e] }
              rw [hr] at h
              exact h
            cases r with
            | ok u => exact pres_trans p1 (pres_trans p2 (ih (Act.effects rest) w2))
            | error ex => exact pres_trans p1 p2
    | handlersA sid hs =>
      cases hs with
      | nil => exact pres_refl _
      | cons h rest =>
        simp only [exec]
        cases hd : assocFind h w.handlerDefs with
        | none =>
          simp only [hd]
          exact ih (Act.handlersA sid rest) w
        | some p =>
          simp only [hd]
          cases hr : exec fuel (Act.prog p) w with
          | mk r w2 =>
            have p2 : Pres w w2 := by
              have hq := ih (Act.prog p) w
              rw [hr] at hq
              exact hq
            cases r with
            | ok u => exact pres_trans p2 (ih (Act.handlersA sid rest) w2)
            | error ex =>
              have p3 : Pres w2 (setErrorSlot w2 sid "handler error") :=
                pres_setErrorSlot w2 sid "handler error"
              have p4 : Pres (setErrorSlot w2 sid "handler error")
                  (exec fuel (Act.emitA sid EventType.error (EvPayload.errorP "handler error"))
                    (setErrorSlot w2 sid "handler error")).2 := ih _ _
              exact pres_trans p2 (pres_trans p3 (pres_trans p4 (ih (Act.handlersA sid rest) _)))
    | emitA sid ty pl =>
      simp only [exec]
      have p1 : Pres w { w with log := w.log ++ [Ev.emit sid ty pl] } :=
        pres_of_same_signals rfl rfl
      cases hg : getSig { w with log := w.log ++ [Ev.emit sid ty pl] } sid with
      | none =>
        simp only [hg]
        exact p1
      | some s =>
        simp only [hg]
        exact pres_trans p1 (ih (Act.handlersA sid (handlersFor s ty)) _)
    | notifyA sid ov =>
      simp only [exec]
      cases hg : getSig w sid with
      | none =>
        simp only [hg]
        exact pres_refl _
      | some s =>
        simp only [hg]
        by_cases hdis : s.disposed = true
        · rw [if_pos hdis]
          exact pres_refl _
        · rw [if_neg hdis]
          by_cases hb : w.batchDepth > 0
          · rw [if_pos hb]
            have p1 : Pres w { w with pendingEffects := s.subscribers.foldl addUnique w.pendingEffects } :=
              pres_of_same_signals rfl rfl
            exact pres_trans p1 (ih (Act.emitA sid EventType.change _) _)
          · rw [if_neg hb]
            cases hr : exec fuel (Act.effects s.subscribers) w with
            | mk r w2 =>
              have p2 : Pres w w2 := by
                have hq := ih (Act.effects s.subscribers) w
                rw [hr] at hq
                exact hq
              cases r with
              | error ex => exact p2
              | ok u => exact pres_trans p2 (ih (Act.emitA sid EventType.change _) w2)
    | write sid v =>
      simp only [exec]
      cases hg : getSig w sid with
      | none =>
        simp only [hg]
        exact pres_refl _
      | some s =>
        simp only [hg]
        by_cases hdis : s.disposed = true
        · rw [if_pos hdis]
          exact pres_refl _
        · rw [if_neg hdis]
          by_cases heq : jsEq s.value v = true
          · rw [if_pos heq]
            exact pres_refl _
          · rw [if_neg heq]
            by_cases hval : (validateValue s v).1 = true
            · rw [if_pos hval]
              have p1 : Pres w (setSig w sid { s with value := v }) :=
                pres_setSig hg (fun h => h)
              cases hr : exec fuel (Act.notifyA sid (transformValue s.transform v))
                  (setSig w sid { s with value := v }) with
              | mk r w2 =>
                have p2 : Pres (setSig w sid { s with value := v }) w2 := by
                  have hq := ih (Act.notifyA sid (transformValue s.transform v))
                    (setSig w sid { s with value := v })
                  rw [hr] at hq
                  exact hq
                cases r with
                | ok u => exact pres_trans p1 p2
                | error ex =>
                  have p3 : Pres w2 (setErrorSlot w2 sid "Error in Resin") :=
                    pres_setErrorSlot w2 sid "Error in Resin"
                  have p4 : Pres (setErrorSlot w2 sid "Error in Resin")
                      (exec fuel (Act.emitA sid EventType.error (EvPayload.errorP "Error in Resin"))
                        (setErrorSlot w2 sid "Error in Resin")).2 := ih _ _
                  exact pres_trans p1 (pres_trans p2 (pres_trans p3 p4))
            · rw [if_neg hval]
              exact ih (Act.emitA sid EventType.error _) w
    | disposeA sid =>
      simp only [exec]
      cases hg : getSig w sid with
      | none =>
        simp only [hg]
        exact pres_refl _
      | some s =>
        simp only [hg]
        by_cases hdis : s.disposed = true
        · rw [if_pos hdis]
          exact pres_refl _
        · rw [if_neg hdis]
          have p1 : Pres w (setSig w sid { s with disposed := true }) :=
            pres_setSig hg (fun _ => rfl)
          have p2 : Pres (setSig w sid { s with disposed := true })
              (exec fuel (Act.emitA sid EventType.dispose (EvPayload.disposeP s.value))
                (setSig w sid { s with disposed := true })).2 := ih _ _
          cases hg2 : getSig (exec fuel (Act.emitA sid EventType.dispose (EvPayload.disposeP s.value))
              (setSig w sid { s with disposed := true })).2 sid with
          | none =>
            simp only [hg2]
            exact pres_trans p1 p2
          | some s2 =>
            simp only [hg2]
            have p3 : Pres (exec fuel (Act.emitA sid EventType.dispose (EvPayload.disposeP s.value))
                  (setSig w sid { s with disposed := true })).2
                (setSig (exec fuel (Act.emitA sid EventType.dispose (EvPayload.disposeP s.value))
                  (setSig w sid { s with disposed := true })).2 sid
                  { s2 with subscribers := [], handlers := [] }) :=
              pres_setSig hg2 (fun h => h)
            exact pres_trans p1 (pres_trans p2 p3)
    | prog p =>
      cases p with
      | skip =>
        exact pres_refl _
      | seq a b =>
        simp only [exec]
        cases hr : exec fuel (Act.prog a) w with
        | mk r w2 =>
          have p2 : Pres w w2 := by
            have hq := ih (Act.prog a) w
            rw [hr] at hq
            exact hq
          cases r with
          | ok u => exact pres_trans p2 (ih (Act.prog b) w2)
          | error ex => exact p2
      | exprStmt e =>
        simp only [exec]
        cases hr : evalExpr e w with
        | mk r w2 =>
          have p2 : Pres w w2 := by
            have hq := pres_evalExpr e w
            rw [hr] at hq
            exact hq
          cases r with
          | ok u => exact p2
          | error ex => exact p2
      | writeSig sid e =>
        simp only [exec]
        cases hr : evalExpr e w with
        | mk r w2 =>
          have p2 : Pres w w2 := by
            have hq := pres_evalExpr e w
            rw [hr] at hq
            exact hq
          cases r with
          | ok v => exact pres_trans p2 (ih (Act.write sid v) w2)
          | error ex => exact p2
      | writeSigWith sid srcs f =>
        simp only [exec]
        cases hr : readMany srcs w with
        | mk r w2 =>
          have p2 : Pres w w2 := by
            have hq := pres_readMany srcs w
            rw [hr] at hq
            exact hq
          cases r with
          | ok vs => exact pres_trans p2 (ih (Act.write sid (f vs)) w2)
          | error ex => exact p2
      | tryCatch a h =>
        simp only [exec]
        cases hr : exec fuel (Act.prog a) w with
        | mk r w2 =>
          have p2 : Pres w w2 := by
            have hq := ih (Act.prog a) w
            rw [hr] at hq
            exact hq
          cases r with
          | ok u => exact p2
          | error ex => exact pres_trans p2 (ih (Act.prog h) w2)
      | batchP body =>
        simp only [exec]
        have p1 : Pres w { w with batchDepth := w.batchDepth + 1 } :=
          pres_of_same_signals rfl rfl
        cases hr : exec fuel (Act.prog body) { w with batchDepth := w.batchDepth + 1 } with
        | mk r w2 =>
          have p2 : Pres { w with batchDepth := w.batchDepth + 1 } w2 := by
            have hq := ih (Act.prog body) { w with batchDepth := w.batchDepth + 1 }
            rw [hr] at hq
            exact hq
          have p3 : Pres w2 { w2 with batchDepth := w2.batchDepth - 1 } :=
            pres_of_same_signals rfl rfl
          by_cases hz : { w2 with batchDepth := w2.batchDepth - 1 }.batchDepth = 0
          · rw [if_pos hz]
            cases hf : exec fuel (Act.effects { w2 with batchDepth := w2.batchDepth - 1 }.pendingEffects)
                { w2 with batchDepth := w2.batchDepth - 1 } with
            | mk rf w4 =>
              have p4 : Pres { w2 with batchDepth := w2.batchDepth - 1 } w4 := by
                have hq := ih (Act.effects { w2 with batchDepth := w2.batchDepth - 1 }.pendingEffects)
                  { w2 with batchDepth := w2.batchDepth - 1 }
                rw [hf] at hq
                exact hq
              have p5 : Pres w4 { w4 with pendingEffects := [] } :=
                pres_of_same_signals rfl rfl
              cases rf with
              | ok u =>
                exact pres_trans p1 (pres_trans p2 (pres_trans p3 (pres_trans p4 p5)))
              | error ex =>
                exact pres_trans p1 (pres_trans p2 (pres_trans p3 p4))
          · rw [if_neg hz]
            exact pres_trans p1 (pres_trans p2 p3)
      | disposeP sid =>
        simp only [exec]
        exact ih (Act.disposeA sid) w
      | throwP =>
        exact pres_refl _

theorem getSig_update_log (w : World) (L : List Ev) (sid : Nat) :
    getSig { w with log := L } sid = getSig w sid := rfl

theorem getSig_update_pending (w : World) (P : List Nat) (sid : Nat) :
    getSig { w with pendingEffects := P } sid = getSig w sid := rfl

/-- C7: a write whose value the configured validator rejects with
`{ valid: false, error: m }` leaves the world unchanged except for a
single error event appended to the trace: the stored value is
untouched, no change event is emitted, no subscriber is invoked, and
the call returns normally (no exception reaches the caller). -/
theorem c7_validation_rejection (fuel : Nat) (w : World) (sid : Nat)
    (s : SignalState) (x : JsVal) (f : JsVal → VResult) (m : String)
    (hs : getSig w sid = some s) (hd : s.disposed = false)
    (hne : jsEq s.value x = false) (hv : s.validate = some f)
    (hf : f x = VResult.objR false (some m))
    (hh : handlersFor s EventType.error = []) :
    writeValue (fuel + 1 + 1) sid x w =
      (Except.ok (),
       { w with log := w.log ++ [Ev.emit sid EventType.error (EvPayload.errorP m)] }) := by
  simp [writeValue, exec, hs, hd, hne, validateValue, hv, hf,
    getSig_update_log, hh]

/-- C4: with a batch open (depth > 0), a successful write still emits
its change event synchronously: the trace gains exactly the change
emission (no Ev.invoke entry, so no subscriber ran), the subscribers
are only added to the shared pending set, the stored value is updated
and the batch depth is untouched.  Batching defers effect execution,
never event emission. -/
theorem c4_change_emitted_inside_batch (fuel : Nat) (w : World) (sid : Nat)
    (s : SignalState) (x : JsVal)
    (hb : 0 < w.batchDepth)
    (hs : getSig w sid = some s) (hd : s.disposed = false)
    (hne : jsEq s.value x = false) (hv : s.validate = none)
    (hh : handlersFor s EventType.change = []) :
    writeValue (fuel + 1 + 1 + 1) sid x w =
      (Except.ok (),
       { w with
           signals := setSigList sid { s with value := x } w.signals
           pendingEffects := List.foldl addUnique w.pendingEffects s.subscribers
           log := w.log ++ [Ev.emit sid EventType.change
             (EvPayload.changeP x (transformValue s.transform x))] }) := by
  have hs' : assocFind sid w.signals = some s := hs
  have hh' : s.handlers.filterMap
      (fun p => if p.1 = EventType.change then some p.2 else none) = [] := hh
  simp [writeValue, exec, hs, hd, hne, validateValue, hv, hb, setSig, currentValue,
    getSig, assocFind_setSigList, hs', handlersFor, hh']

/-- C8: the transform wiring of a successful write outside a batch: the
untransformed `x` is stored as the signal value, while the left-to-right
fold of the transform pipeline over `x` is emitted as the oldValue field
of the change payload. -/
theorem c8_transform_wiring (fuel : Nat) (w : World) (sid : Nat)
    (s : SignalState) (x : JsVal)
    (hb : w.batchDepth = 0)
    (hs : getSig w sid = some s) (hd : s.disposed = false)
    (hne : jsEq s.value x = false) (hv : s.validate = none)
    (hsub : s.subscribers = [])
    (hh : handlersFor s EventType.change = []) :
    writeValue (fuel + 1 + 1 + 1) sid x w =
      (Except.ok (),
       { w with
           signals := setSigList sid { s with value := x } w.signals
           log := w.log ++ [Ev.emit sid EventType.change
             (EvPayload.changeP x (transformValue s.transform x))] }) ∧
    currentValue (writeValue (fuel + 1 + 1 + 1) sid x w).2 sid = x := by
  have hs' : assocFind sid w.signals = some s := hs
  have hh' : s.handlers.filterMap
      (fun p => if p.1 = EventType.change then some p.2 else none) = [] := hh
  have h1 : writeValue (fuel + 1 + 1 + 1) sid x w =
      (Except.ok (),
       { w with
           signals := setSigList sid { s with value := x } w.signals
           log := w.log ++ [Ev.emit sid EventType.change
             (EvPayload.changeP x (transformValue s.transform x))] }) := by
    simp [writeValue, exec, hs, hd, hne, validateValue, hv, hb, hsub, setSig,
      currentValue, getSig, assocFind_setSigList, hs', handlersFor, hh']
  refine ⟨h1, ?_⟩
  rw [h1]
  simp [currentValue, getSig, assocFind_setSigList, hs']

/-- C1 (counterexample): the computed function reads signal 1 for the
first time during the re-run triggered by the write to signal 0 (it now
returns the value 5 of signal 1), yet signal 1 gains no subscriber, and
after signal 1 changes to 7 the computed signal still holds 5 instead of
recomputing to 7.  This refutes the claim that each re-execution
re-subscribes the recompute effect to every signal it reads. -/
theorem c1_counterexample :
    (readValue 2 c1WAfterA).1 = Except.ok (JsVal.num 5) ∧
    (getSig c1WAfterA 1).map SignalState.subscribers = some [] ∧
    (readValue 2 c1WAfterB).1 = Except.ok (JsVal.num 5) ∧
    (readValue 1 c1WAfterB).1 = Except.ok (JsVal.num 7) ∧
    jsEq (JsVal.num 5) (JsVal.num 7) = false :=
  ⟨rfl, rfl, rfl, rfl, rfl⟩

/-- C1 (amended): running programs (writes, notifications, batches — in
particular the notify-triggered re-executions of a recompute effect)
never modifies the effect stack; only `watchEffect` pushes.  Hence only
the initial execution of the recompute effect subscribes it to the
signals it reads: in the run, signal 0 read during the initial tracked
execution is subscribed, but signal 1, first read during a later
re-execution, is not, and its subsequent change does not trigger
recomputation. -/
theorem c1_amended :
    (∀ (fuel : Nat) (p : Prog) (w : World),
      (runProg fuel p w).2.effectStack = w.effectStack) ∧
    (getSig c1WComputed 0).map SignalState.subscribers = some [3] ∧
    (getSig c1WAfterA 1).map SignalState.subscribers = some [] ∧
    (readValue 2 c1WAfterA).1 = Except.ok (JsVal.num 5) ∧
    (readValue 2 c1WAfterB).1 = Except.ok (JsVal.num 5) := by
  refine ⟨?_, rfl, rfl, rfl, rfl⟩
  intro fuel p w
  exact (pres_exec fuel (Act.prog p) w).1

/-- C2 (code bug): after writing 10 to the first source, the internal
derived signal recomputes to 12 and the compute over the current source
values is 12, but reading `.value` on the object `derive` returned still
yields 3: the object spread in `return { ...derivedResin, dispose }`
evaluated the value getter once at creation, producing a stale plain
data property. -/
theorem c2_code_bug :
    c2Handle.valueProp = JsVal.num 3 ∧
    (readValue c2Handle.sid c2WAfterWrite).1 = Except.ok (JsVal.num 12) ∧
    c2Sum [currentValue c2WAfterWrite 0, currentValue c2WAfterWrite 1] = JsVal.num 12 ∧
    jsEq c2Handle.valueProp (JsVal.num 12) = false :=
  ⟨rfl, rfl, rfl, rfl⟩

/-- C3: an effect (id 2) subscribed to signals 0 and 1, both written
inside one batch: the trace after the batch shows exactly one
invocation of the effect (the trailing `Ev.invoke 2`; the leading one is
its initial `watchEffect` run), occurring after both change events —
regardless of write order, and identically when the first write sits in
a nested inner batch, whose exit therefore triggered no flush.  The
pending set is empty afterwards.  The final conjunct is the Set
deduplication: adding an already-queued effect leaves the pending set
unchanged, so an effect queued by both signals runs once. -/
theorem c3_batch_dedup :
    (c3RunXY.2.log = [Ev.invoke 2,
        Ev.emit 0 EventType.change (EvPayload.changeP (JsVal.num 2) (JsVal.num 2)),
        Ev.emit 1 EventType.change (EvPayload.changeP (JsVal.num 3) (JsVal.num 3)),
        Ev.invoke 2] ∧
      c3RunXY.2.pendingEffects = []) ∧
    (c3RunYX.2.log = [Ev.invoke 2,
        Ev.emit 1 EventType.change (EvPayload.changeP (JsVal.num 3) (JsVal.num 3)),
        Ev.emit 0 EventType.change (EvPayload.changeP (JsVal.num 2) (JsVal.num 2)),
        Ev.invoke 2] ∧
      c3RunYX.2.pendingEffects = []) ∧
    (c3RunNested.2.log = [Ev.invoke 2,
        Ev.emit 0 EventType.change (EvPayload.changeP (JsVal.num 2) (JsVal.num 2)),
        Ev.emit 1 EventType.change (EvPayload.changeP (JsVal.num 3) (JsVal.num 3)),
        Ev.invoke 2] ∧
      c3RunNested.2.pendingEffects = []) ∧
    (∀ (l : List Nat) (e : Nat), e ∈ l → addUnique l e = l) := by
  refine ⟨⟨rfl, rfl⟩, ⟨rfl, rfl⟩, ⟨rfl, rfl⟩, ?_⟩
  intro l e h
  simp [addUnique, h]

theorem c3_batch_dedup_witness : addUnique [7] 7 = [7] :=
  c3_batch_dedup.2.2.2 [7] 7 (by decide)

theorem c4_change_emitted_inside_batch_witness :
    (writeValue (0 + 1 + 1 + 1) 0 (JsVal.num 5) c4W).2.pendingEffects = [1] ∧
    (writeValue (0 + 1 + 1 + 1) 0 (JsVal.num 5) c4W).2.log =
      c4W.log ++ [Ev.emit 0 EventType.change
        (EvPayload.changeP (JsVal.num 5) (JsVal.num 5))] ∧
    (writeValue (0 + 1 + 1 + 1) 0 (JsVal.num 5) c4W).2.batchDepth = 1 := by
  rw [c4_change_emitted_inside_batch 0 c4W 0
    ⟨JsVal.num 0, false, [1], [], none, none, []⟩ (JsVal.num 5)
    (by decide) rfl rfl rfl rfl rfl]
  exact ⟨rfl, rfl, rfl⟩

/-- C5 (code bug): two calls of `select` with the same (signal, path)
pair return two different computed signal instances (ids 1 and 3): the
memoization cache is recreated empty inside every call, so it can never
hit.  Both instances do project the path correctly (value 5). -/
theorem c5_code_bug :
    c5First.1 = Except.ok 1 ∧
    c5Second.1 = Except.ok 3 ∧
    (((1 : Nat) == 3) = false) ∧
    (readValue 1 c5Second.2).1 = Except.ok (JsVal.num 5) ∧
    (readValue 3 c5Second.2).1 = Except.ok (JsVal.num 5) :=
  ⟨rfl, rfl, rfl, rfl, rfl⟩

/-- C6 (counterexample): registering an event handler via `on` on a
disposed signal does not fail: the call returns an unsubscribe handle
(id 1) and the handler is actually added to the handler registry, while
the signal stays disposed.  This refutes the claim that subscription
after disposal throws a DisposedAccessError. -/
theorem c6_counterexample :
    disposedAt c6WDisposed 0 = true ∧
    c6OnRes.1 = 1 ∧
    (getSig c6OnRes.2 0).map SignalState.handlers = some [(EventType.change, 1)] ∧
    disposedAt c6OnRes.2 0 = true :=
  ⟨rfl, rfl, rfl, rfl⟩

/-- C6 (amended): after disposal, reads and writes fail by throwing the
disposed-access error and the world is untouched; registering a handler
via `on` does NOT throw — it returns normally and records the handler;
and the disposed flag is permanent: no program execution (writes,
batches, even further dispose calls) can reset it. -/
theorem c6_amended :
    (∀ (w : World) (sid : Nat) (s : SignalState),
      getSig w sid = some s → s.disposed = true →
      readValue sid w =
        (Except.error (Exn.disposedAccess "Attempted to access disposed resin"), w)) ∧
    (∀ (fuel : Nat) (w : World) (sid : Nat) (s : SignalState) (x : JsVal),
      getSig w sid = some s → s.disposed = true →
      writeValue (fuel + 1) sid x w =
        (Except.error (Exn.disposedAccess "Attempted to modify disposed resin"), w)) ∧
    (∀ (w : World) (sid : Nat) (s : SignalState) (ty : EventType) (pb : Prog),
      getSig w sid = some s → s.disposed = true →
      onEvent sid ty pb w =
        (w.nextId,
         { w with
             nextId := w.nextId + 1
             handlerDefs := w.handlerDefs ++ [(w.nextId, pb)]
             signals := setSigList sid
               { s with handlers := s.handlers ++ [(ty, w.nextId)] } w.signals })) ∧
    (∀ (fuel : Nat) (p : Prog) (w : World) (sid : Nat),
      disposedAt w sid = true → disposedAt (runProg fuel p w).2 sid = true) := by
  refine ⟨?_, ?_, ?_, ?_⟩
  · intro w sid s hs hd
    simp [readValue, hs, hd]
  · intro fuel w sid s x hs hd
    simp [writeValue, exec, hs, hd]
  · intro w sid s ty pb hs hd
    have hs' : assocFind sid w.signals = some s := hs
    simp [onEvent, getSig, setSig, hs']
  · intro fuel p w sid hd
    exact (pres_exec fuel (Act.prog p) w).2 sid hd

theorem c6_amended_witness :
    readValue 0 c6WDisposed =
      (Except.error (Exn.disposedAccess "Attempted to access disposed resin"), c6WDisposed) ∧
    writeValue (0 + 1) 0 (JsVal.num 9) c6WDisposed =
      (Except.error (Exn.disposedAccess "Attempted to modify disposed resin"), c6WDisposed) ∧
    (onEvent 0 EventType.dispose Prog.skip c6WDisposed).1 = 1 ∧
    disposedAt (runProg 6 (Prog.disposeP 0) c6WDisposed).2 0 = true := by
  refine ⟨?_, ?_, ?_, ?_⟩
  · exact c6_amended.1 c6WDisposed 0 ⟨JsVal.num 0, true, [], [], none, none, []⟩ rfl rfl
  · exact c6_amended.2.1 0 c6WDisposed 0
      ⟨JsVal.num 0, true, [], [], none, none, []⟩ (JsVal.num 9) rfl rfl
  · rw [c6_amended.2.2.1 c6WDisposed 0
      ⟨JsVal.num 0, true, [], [], none, none, []⟩ EventType.dispose Prog.skip rfl rfl]
    rfl
  · exact c6_amended.2.2.2 6 (Prog.disposeP 0) c6WDisposed 0 rfl

theorem c7_validation_rejection_witness :
    (writeValue (0 + 1 + 1) 0 (JsVal.num 5) c7W).1 = Except.ok () ∧
    (writeValue (0 + 1 + 1) 0 (JsVal.num 5) c7W).2.log =
      c7W.log ++ [Ev.emit 0 EventType.error (EvPayload.errorP "bad")] ∧
    currentValue (writeValue (0 + 1 + 1) 0 (JsVal.num 5) c7W).2 0 = JsVal.num 0 := by
  rw [c7_validation_rejection 0 c7W 0
    ⟨JsVal.num 0, false, [], [], none, some c7Validator, []⟩ (JsVal.num 5)
    c7Validator "bad" rfl rfl rfl rfl rfl rfl]
  exact ⟨rfl, rfl, rfl⟩

theorem c8_transform_wiring_witness :
    currentValue (writeValue (0 + 1 + 1 + 1) 0 (JsVal.num 5) c8W).2 0 = JsVal.num 5 ∧
    (writeValue (0 + 1 + 1 + 1) 0 (JsVal.num 5) c8W).2.log =
      c8W.log ++ [Ev.emit 0 EventType.change
        (EvPayload.changeP (JsVal.num 5) (JsVal.num 11))] := by
  have h := c8_transform_wiring 0 c8W 0
    ⟨JsVal.num 1, false, [], [], none, none, c8Transform⟩ (JsVal.num 5)
    rfl rfl rfl rfl rfl rfl rfl
  refine ⟨h.2, ?_⟩
  rw [h.1]
  rfl

/-- C9 (code bug): an ECMAScript proxy set trap receives property keys
as strings or symbols, so `typeof prop === 'number'` is always false and
the guard of the set trap degenerates to `prop === 'length'`.  An index
assignment (string key "0") therefore performs no assignment on the
target and no republish at all: the trap returns true leaving the
wrapper, the world (hence the trace — no notify) untouched. -/
theorem c9_index_assignment_unreachable :
    (∀ (fuel : Nat) (ea : EnhArr) (v : JsVal) (w : World),
      arraySetTrap fuel ea (PropKey.str "0") v w = (ea, w, true)) ∧
    (∀ p : PropKey,
      (typeOf p = "number" ∨ p = PropKey.str "length") ↔ p = PropKey.str "length") := by
  refine ⟨?_, ?_⟩
  · intro fuel ea v w
    unfold arraySetTrap
    rw [if_neg (by decide :
      ¬(typeOf (PropKey.str "0") = "number" ∨ PropKey.str "0" = PropKey.str "length"))]
  · intro p
    cases p with
    | str s =>
      have hne : ("string" : String) ≠ "number" := by decide
      constructor
      · intro h
        exact h.resolve_left hne
      · intro h
        exact Or.inr h
    | sym id =>
      have hne : ("symbol" : String) ≠ "number" := by decide
      constructor
      · intro h
        exact h.resolve_left hne
      · intro h
        exact Or.inr h

/-- C10: when the function passed to `watchEffect` throws, the exception
propagates to the caller and the pop of the effect stack is skipped (no
finally), leaving the effect on the stack; any signal read afterwards —
outside any running effect — then registers that function as a
subscriber. -/
theorem c10_throwing_watch_effect :
    (∀ (fuel : Nat) (w : World),
      watchEffect (fuel + 1) Prog.throwP w =
        (Except.error Exn.thrown, w.nextId,
         { w with
             nextId := w.nextId + 1
             effectDefs := w.effectDefs ++ [(w.nextId, Prog.throwP)]
             effectStack := w.nextId :: w.effectStack
             log := w.log ++ [Ev.invoke w.nextId] })) ∧
    (∀ (w : World) (sid : Nat) (s : SignalState) (e : Nat) (rest : List Nat),
      w.effectStack = e :: rest → getSig w sid = some s → s.disposed = false →
      readValue sid w =
        (Except.ok s.value,
         setSig w sid { s with subscribers := addUnique s.subscribers e })) := by
  refine ⟨?_, ?_⟩
  · intro fuel w
    simp [watchEffect, runProg, exec]
  · intro w sid s e rest hst hs hd
    simp [readValue, hs, hd, hst]

theorem c10_throwing_watch_effect_witness :
    (watchEffect (4 + 1) Prog.throwP c10WStart).1 = Except.error Exn.thrown ∧
    (watchEffect (4 + 1) Prog.throwP c10WStart).2.2.effectStack = [1] ∧
    (getSig (readValue 0 (watchEffect (4 + 1) Prog.throwP c10WStart).2.2).2 0).map
      SignalState.subscribers = some [1] := by
  have h1 := c10_throwing_watch_effect.1 4 c10WStart
  have h2 := c10_throwing_watch_effect.2
    (watchEffect (4 + 1) Prog.throwP c10WStart).2.2 0
    ⟨JsVal.num 0, false, [], [], none, none, []⟩ 1 [] rfl rfl rfl
  refine ⟨?_, ?_, ?_⟩
  · rw [h1]
  · rw [h1]
    rfl
  · rw [h2]
    rfl

end Resin


